import Mathlib

/-!
Verification of the SteadyQ load-generation engine (Go) against its
natural-language specification, via a shallow embedding of the relevant
source functions.

Conventions of the embedding:
* Go `uint64` counters that a single call advances by at most one
  (requests / successes / failures) are modelled as `Nat`; their 2^64
  wraparound would need 2^64 recorded requests and is not modelled.
* The byte counter receives an arbitrary `uint64` argument per call, so
  its modular 2^64 arithmetic is modelled explicitly (`u64Mod`).
* Go `int64` arithmetic that can overflow is modelled by `wrap64`
  (two's-complement wraparound into `[-2^63, 2^63)`).
* Wall-clock instants are nanosecond counts (`Int`) on Go's monotonic
  clock; `time.Time.Sub` is integer subtraction.
* Go float64 rate arithmetic is modelled exactly over `ℚ`.
* The Go `map[int]int` of status codes is modelled by the list of
  recorded codes: the map's count for `c` is `codes.count c` and the sum
  of all counts in the map is `codes.length`.
-/

namespace SteadyQ

/-- Modulus of Go `uint64` arithmetic. -/
def u64Mod : Nat := 2 ^ 64

/-- Two's-complement wraparound of Go `int64` arithmetic: reduces an
integer into `[-2^63, 2^63)`. -/
def wrap64 (x : Int) : Int := (x + 2 ^ 63) % 2 ^ 64 - 2 ^ 63

/-- Conversion `uint64(x)` of a Go `int64` value `x`: the representative
of `x` modulo `2^64` (so `uint64(-1) = 2^64 - 1`). -/
def uint64OfInt64 (x : Int) : Nat := (x % (2 ^ 64 : Int)).toNat

/-! ## Stats aggregator (internal/stats/stats.go)

The `Stats` struct revision cited by the claims (stats.go:73-147):
atomic counters, the queue-wait sum, two histograms and the
status-code map.  Histogram internals (hdrhistogram bucketing and
quantiles) are not needed by any claim; the model keeps the exact
multiset of recorded values as a list.  The status-code map is kept as
the list of recorded codes (see the header comment). -/

structure StatsState where
  requests : Nat
  success : Nat
  fail : Nat
  bytes : Nat
  totalQueueWaitMicro : Int
  serviceRec : List Int
  totalRec : List Int
  codes : List Int
  deriving Repr, DecidableEq

/-- Fresh aggregator, `NewStats` (stats.go:97-103): zero counters, empty
histograms, empty status-code map. -/
def statsInit : StatsState :=
  { requests := 0, success := 0, fail := 0, bytes := 0
    totalQueueWaitMicro := 0, serviceRec := [], totalRec := [], codes := [] }

/-- Mirrors `Stats.Reset` (stats.go:105-118): stores zero into every
counter, re-creates both histograms and replaces the status-code map
with a fresh empty map — i.e. the fresh state. -/
def statsReset (_ : StatsState) : StatsState := statsInit

/-- Mirrors `Stats.Add` (stats.go:120-138).  Arguments are the recorded
request outcome: `res` the success flag, `b` the `uint64` byte count,
`serviceUs`/`queueUs`/`totalUs` the three durations in microseconds
(`time.Duration.Microseconds()` of the passed durations), `code` the
status code.  `AddUint64` on the byte counter wraps modulo `2^64`;
`AddInt64` on the queue-wait sum wraps in `int64`. -/
def statsAdd (s : StatsState) (res : Bool) (b : Nat)
    (serviceUs queueUs totalUs : Int) (code : Int) : StatsState :=
  { requests := s.requests + 1
    success := if res then s.success + 1 else s.success
    fail := if res then s.fail else s.fail + 1
    bytes := (s.bytes + b) % u64Mod
    totalQueueWaitMicro := wrap64 (s.totalQueueWaitMicro + queueUs)
    serviceRec := serviceUs :: s.serviceRec
    totalRec := totalUs :: s.totalRec
    codes := code :: s.codes }

/-- One recorded request: the argument tuple of one `Stats.Add` call. -/
structure AddArgs where
  res : Bool
  bytes : Nat
  serviceUs : Int
  queueUs : Int
  totalUs : Int
  code : Int
  deriving Repr, DecidableEq

/-- Applies `Stats.Add` for a whole sequence of recorded requests,
starting from a given state. -/
def statsRunFrom (s : StatsState) (ops : List AddArgs) : StatsState :=
  ops.foldl (fun t a => statsAdd t a.res a.bytes a.serviceUs a.queueUs a.totalUs a.code) s

/-- Applies a sequence of `Stats.Add` calls to the fresh state. -/
def statsRun (ops : List AddArgs) : StatsState := statsRunFrom statsInit ops

/-- Mirrors `Stats.ErrorRate` (stats.go:44-51, identical counters in the
cited revision): `0` when the request counter is zero, otherwise
`fails / requests * 100` (float64 arithmetic modelled over `ℚ`). -/
def errorRate (s : StatsState) : ℚ :=
  if s.requests = 0 then 0 else ((s.fail : ℚ) / (s.requests : ℚ)) * 100

/-- Mirrors `Stats.QueueWaitAvgMs` (stats.go:140-147): `0` when the
request counter is zero, otherwise
`totalQueueWaitMicro / requests / 1000`. -/
def queueWaitAvgMs (s : StatsState) : ℚ :=
  if s.requests = 0 then 0
  else ((s.totalQueueWaitMicro : ℚ) / (s.requests : ℚ)) / 1000

/-! ## Request execution and classification (internal/runner/runner.go)

`executeRequest` (runner.go:320-467) performs either a shell command or
an HTTP request.  The possible results of the underlying execution are
captured by `ExecOutcome`; the classification, byte accounting and
response-body retention that `executeRequest` applies to each case are
mirrored by `classify`. -/

/-- Result of the underlying execution inside `executeRequest`:
* `shellExit0 out` — `cmd.Run()` returned nil (the process exited 0);
  `out` is the captured stdout;
* `shellExitErr c st` — `cmd.Run()` returned an `exec.ExitError` with
  `ExitCode() = c` (a non-zero exit code, or `-1` for a signal); `st`
  is the captured stderr;
* `shellStartErr st` — `cmd.Run()` failed with a non-`ExitError`
  (the process could not be started);
* `httpResp s cl b` — `Client.Do` succeeded with status code `s`,
  `ContentLength = cl` (`-1` when unknown) and response body `b`;
* `httpErr` — `Client.Do` returned a transport-level error. -/
inductive ExecOutcome where
  | shellExit0 (stdout : String)
  | shellExitErr (code : Int) (stderr : String)
  | shellStartErr (stderr : String)
  | httpResp (status : Int) (contentLength : Int) (body : String)
  | httpErr
  deriving Repr, DecidableEq

/-- Fields of the `ExperimentResult` that `executeRequest` assembles and
records for one request: status code, success flag, retained response
body, byte count. -/
structure ReqRecord where
  status : Int
  success : Bool
  respBody : String
  bytes : Int
  deriving Repr, DecidableEq

/-- Mirrors the status / success / body / bytes assignment of
`executeRequest` (runner.go:332-446).  `status` and `bytesLen` start at
their zero values; the shell path (337-367) sets status 200 and retains
stdout on exit 0, otherwise status = exit code (500 when the process
failed to start) and retains stderr; the HTTP path (409-422) on
transport success records the status code and `ContentLength` and
retains the full body only when status >= 400; the success flag (442-446)
is set only when `err == nil` and the status lies in [200, 300). -/
def classify : ExecOutcome → ReqRecord
  | .shellExit0 out =>
      { status := 200, success := true, respBody := out, bytes := (out.length : Int) }
  | .shellExitErr c st =>
      { status := c, success := false, respBody := st, bytes := 0 }
  | .shellStartErr st =>
      { status := 500, success := false, respBody := st, bytes := 0 }
  | .httpResp s cl b =>
      { status := s, success := decide (200 ≤ s ∧ s < 300)
        respBody := if 400 ≤ s then b else "", bytes := cl }
  | .httpErr =>
      { status := 0, success := false, respBody := "", bytes := 0 }

/-- Holds exactly when `err == nil` at runner.go:442 — the shell process
exited 0 or the HTTP round trip succeeded at transport level. -/
def errIsNil : ExecOutcome → Bool
  | .shellExit0 _ => true
  | .httpResp _ _ _ => true
  | _ => false

/-! ## Timing accounting of executeRequest (runner.go:320-327, 425-427)

Instants are nanosecond counts on Go's monotonic clock.  `actualStart`
and `endTime` come from two successive `time.Now()` calls inside
`executeRequest`, so `actualStart <= endTime`; every call site passes a
`scheduledTime` taken from `time.Now()` (closed loop) or from the
emission cursor at a moment when it is `<= now` (open loop), so every
outcome the program produces has `scheduled <= actualStart`. -/

/-- Mirrors runner.go:322-325: `actualStart.Sub(scheduledTime)` clamped
at zero. -/
def queueWaitOf (scheduled actualStart : Int) : Int :=
  if actualStart - scheduled < 0 then 0 else actualStart - scheduled

/-- Mirrors runner.go:426: `endTime.Sub(actualStart)`. -/
def serviceTimeOf (actualStart endTime : Int) : Int := endTime - actualStart

/-- Mirrors runner.go:427: `endTime.Sub(scheduledTime)`. -/
def totalLatencyOf (scheduled endTime : Int) : Int := endTime - scheduled

/-! ## Open-loop rate curve (runner.go:469-490) -/

/-- The duration and rate fields of `Config` (unnamed/part_005) used by
`getCurrentRPS`: Go `int` seconds and requests per second. -/
structure RPSConfig where
  targetRPS : Int
  rampUp : Int
  steadyDur : Int
  rampDown : Int
  deriving Repr, DecidableEq

/-- Mirrors `getCurrentRPS` (runner.go:469-490) with the float64
arithmetic carried out exactly over `ℚ`. -/
def getCurrentRPS (cfg : RPSConfig) (elapsedSec : ℚ) : ℚ :=
  if elapsedSec < (cfg.rampUp : ℚ) then
    if cfg.rampUp = 0 then (cfg.targetRPS : ℚ)
    else (cfg.targetRPS : ℚ) * (elapsedSec / (cfg.rampUp : ℚ))
  else if elapsedSec < ((cfg.rampUp : ℚ) + (cfg.steadyDur : ℚ)) then
    (cfg.targetRPS : ℚ)
  else if elapsedSec < ((cfg.rampUp : ℚ) + (cfg.steadyDur : ℚ) + (cfg.rampDown : ℚ)) then
    if cfg.rampDown = 0 then 0
    else (cfg.targetRPS : ℚ) *
      ((((cfg.rampUp : ℚ) + (cfg.steadyDur : ℚ) + (cfg.rampDown : ℚ)) - elapsedSec) / (cfg.rampDown : ℚ))
  else 0

/-- Rate curve written the way the specification states it: a piecewise
function over the explicit half-open phase intervals
`[0, rampUp)`, `[rampUp, rampUp + steady)`,
`[rampUp + steady, rampUp + steady + rampDown)`, and zero after the
total duration (with `target` substituted when `rampUp = 0` and `0`
when `rampDown = 0`). -/
def rpsPiecewiseSpec (cfg : RPSConfig) (e : ℚ) : ℚ :=
  if 0 ≤ e ∧ e < (cfg.rampUp : ℚ) then
    (if cfg.rampUp = 0 then (cfg.targetRPS : ℚ)
     else (cfg.targetRPS : ℚ) * (e / (cfg.rampUp : ℚ)))
  else if (cfg.rampUp : ℚ) ≤ e ∧ e < (cfg.rampUp : ℚ) + (cfg.steadyDur : ℚ) then
    (cfg.targetRPS : ℚ)
  else if (cfg.rampUp : ℚ) + (cfg.steadyDur : ℚ) ≤ e ∧
      e < (cfg.rampUp : ℚ) + (cfg.steadyDur : ℚ) + (cfg.rampDown : ℚ) then
    (if cfg.rampDown = 0 then 0
     else (cfg.targetRPS : ℚ) *
       ((((cfg.rampUp : ℚ) + (cfg.steadyDur : ℚ) + (cfg.rampDown : ℚ)) - e) / (cfg.rampDown : ℚ)))
  else 0

/-! ## Run startup (runner.go:143-196)

`Run` parses the URL, body, command and header templates.  Every parse
error is handled by `fmt.Printf` only — there is no early return, the
error variable is not re-checked, and control always falls through to
the tick-loop start (186-189) and the mode dispatch to
`runUsers` / `runRPS` (191-195).  A failed parse leaves the
corresponding template field nil (Go's `text/template.Parse` returns a
nil template together with the error), and a failed header parse skips
the map insertion.  The model is parameterised by the parse results of
the configured templates; the parser itself is Go's `text/template`. -/

/-- State of the runner after the startup section of `Run`: the parsed
template fields and whether control reached the scheduler dispatch at
runner.go:191-195. -/
structure RunState where
  tmplURL : Option String
  tmplBody : Option String
  tmplCmd : Option String
  tmplHeaders : List (String × String)
  schedulerStarted : Bool
  deriving Repr, DecidableEq

/-- Mirrors the startup section of `Run` (runner.go:143-196).  `purl` is
the parse result of the URL template; `pbody` / `pcmd` are the parse
results of the body / command templates when those fields are
configured (`none` when absent); `phdrs` the per-header parse results.
Parse errors are only printed, so the scheduler dispatch is reached
unconditionally. -/
def runStartup (purl : Except String String)
    (pbody pcmd : Option (Except String String))
    (phdrs : List (String × Except String String)) : RunState :=
  { tmplURL := purl.toOption
    tmplBody := pbody.bind Except.toOption
    tmplCmd := pcmd.bind Except.toOption
    tmplHeaders := phdrs.filterMap (fun kv => kv.2.toOption.map (fun t => (kv.1, t)))
    schedulerStarted := true }

/-- Mirrors the URL selection of `executeRequest` (runner.go:376-381):
when the URL template is nil (it failed to parse) the raw configured
URL string is used, otherwise the rendered template output. -/
def requestURL (st : RunState) (rawURL renderedURL : String) : String :=
  match st.tmplURL with
  | some _ => renderedURL
  | none => rawURL

/-- Mirrors the command selection of `executeRequest`
(runner.go:340-345): when the command template is nil (it failed to
parse) the raw configured command string is executed, otherwise the
rendered template output. -/
def requestCmd (st : RunState) (rawCmd renderedCmd : String) : String :=
  match st.tmplCmd with
  | some _ => renderedCmd
  | none => rawCmd

/-- Mirrors the request-body selection of `executeRequest`
(runner.go:383-389): no body when none is configured; the rendered
template output when the body template parsed; the raw configured body
string when the body template is nil (it failed to parse). -/
def requestBody (st : RunState) (rawBody renderedBody : String) : Option String :=
  if rawBody = "" then none
  else
    match st.tmplBody with
    | some _ => some renderedBody
    | none => some rawBody

/-- Header-template map lookup (`r.TmplHeader[k]`). -/
def headerGet : List (String × String) → String → Option String
  | [], _ => none
  | (k, v) :: rest, key => if k = key then some v else headerGet rest key

/-- Mirrors the header-value selection of `executeRequest`
(runner.go:395-400): the raw configured value is used unless the
header's template is present in the template map (a failed header
parse was skipped at startup, runner.go:177-184), in which case the
rendered output is used. -/
def requestHeaderVal (st : RunState) (k rawVal renderedVal : String) : String :=
  match headerGet st.tmplHeaders k with
  | some _ => renderedVal
  | none => rawVal

/-! ## Template engine (unnamed/part_003) and the body file indirection

Template texts are Go strings, modelled as `List Char` so that the
rewrite and the parse can be reasoned about structurally.  Literal
brace characters are written with their `\x7b` / `\x7d` escapes. -/

/-- Opening brace character of a template action. -/
def obr : Char := '\x7b'

/-- Closing brace character of a template action. -/
def cbr : Char := '\x7d'

/-- Mirrors the body rewrite in `Run` (runner.go:155-165): a body whose
first character is the literal `@` is rewritten, before parsing, to a
`readFile` call on the remainder — Go builds it with
`fmt.Sprintf` and the `%q` verb.  The `%q` escaping of quote and
backslash characters inside the filename is not modelled; the theorems
assume filenames without such characters. -/
def rewriteBody : List Char → List Char
  | '@' :: rest =>
      obr :: obr :: ("readFile \"".data ++ rest ++ ('"' :: cbr :: cbr :: []))
  | s => s

/-- Body template shapes the model distinguishes: a literal template
with no action, or the single `readFile "<path>"` action the body
rewrite produces. -/
inductive BodyAST where
  | lit (s : List Char)
  | readFileCall (path : List Char)
  deriving Repr, DecidableEq

/-- Strips an expected leading character sequence, returning the
remainder. -/
def stripLead : List Char → List Char → Option (List Char)
  | [], s => some s
  | _ :: _, [] => none
  | p :: ps, c :: cs => if c = p then stripLead ps cs else none

/-- Scans the characters of a quoted path up to its closing quote, which
must be followed by exactly the two closing braces ending the
template. -/
def scanPath : List Char → Option (List Char)
  | [] => none
  | c :: cs =>
      if c = '"' then (if cs = cbr :: cbr :: [] then some [] else none)
      else (scanPath cs).map (fun p => c :: p)

/-- Parses a body-template text into the shapes of `BodyAST`: the exact
form `\x7b\x7breadFile "<path>"\x7d\x7d` becomes a `readFile` call, a
text containing no brace becomes a literal, and any other template text
is outside the model. -/
def parseBody (s : List Char) : Option BodyAST :=
  match stripLead (obr :: obr :: "readFile \"".data) s with
  | some rest => (scanPath rest).map BodyAST.readFileCall
  | none =>
      if s.any (fun c => c = obr ∨ c = cbr) then none else some (.lit s)

/-- Modelled from the spec: the function table of the current template
engine.  The engine revision under src (unnamed/part_003:30-44)
predates `readFile` — runner.go:159 emits `readFile` calls and the
README documents the function — so the current table is missing from
src; spec section 4.3 lists it as randomInt, randomChoice,
randomUUID / uuid, randomLine, readFile, printf. -/
def engineFuncTable : List String :=
  ["randomInt", "randomChoice", "randomUUID", "uuid", "randomLine", "readFile", "printf"]

/-- File-cache lookup (association list keyed by filename). -/
def cacheGet : List (List Char × List Char) → List Char → Option (List Char)
  | [], _ => none
  | (k, v) :: rest, p => if k = p then some v else cacheGet rest p

/-- Modelled from the spec: `readFile(path)` returns the entire file
contents as a string and caches them — the engine revision under src
predates the function (see `engineFuncTable`).  `fs` is the immutable
file system, `cache` the engine's file cache; the returned `Nat` counts
the file reads this call performed (0 on a cache hit, 1 on a miss). -/
def engineReadFile (fs : List Char → List Char)
    (cache : List (List Char × List Char)) (p : List Char) :
    List Char × List (List Char × List Char) × Nat :=
  match cacheGet cache p with
  | some v => (v, cache, 0)
  | none => (fs p, (p, fs p) :: cache, 1)

/-- Executes a parsed body template for one request: a literal renders
as itself, a `readFile` call renders as the (cached) file contents. -/
def renderBody (fs : List Char → List Char)
    (cache : List (List Char × List Char)) :
    BodyAST → List Char × List (List Char × List Char) × Nat
  | .lit s => (s, cache, 0)
  | .readFileCall p => engineReadFile fs cache p

/-- Renders the body template once per request for `n` requests,
threading the file cache; returns the rendered bodies, the final cache
and the total number of file reads. -/
def renderMany (fs : List Char → List Char) (t : BodyAST) :
    Nat → List (List Char × List Char) →
    List (List Char) × List (List Char × List Char) × Nat
  | 0, cache => ([], cache, 0)
  | n + 1, cache =>
      let r1 := renderBody fs cache t
      let rn := renderMany fs t n r1.2.1
      (r1.1 :: rn.1, rn.2.1, r1.2.2 + rn.2.2)

/-! ## randomInt (unnamed/part_003:75-77)

`randomInt(min, max)` is `rand.Intn(max-min) + min` on Go 64-bit ints:
the subtraction and the final addition wrap in two's complement, and
`rand.Intn` panics when its argument is not positive.  The PRNG draw is
modelled by a `Nat` parameter `r`, with `Intn n` returning `r % n`;
a panic is modelled as `none`. -/

/-- Mirrors `randomInt` (unnamed/part_003:75-77) on Go `int64`
arithmetic.  Returns `none` when `rand.Intn` panics (wrapped
difference `<= 0`), otherwise the drawn value. -/
def randomInt (r : Nat) (lo hi : Int) : Option Int :=
  let n := wrap64 (hi - lo)
  if n ≤ 0 then none else some (wrap64 ((r : Int) % n + lo))

/-! ## Theorems -/

/-- C1 counterexample: the claimed equivalence "success iff recorded
status in [200, 300)" fails at a shell command exiting with code 200
(`sh -c 'exit 200'`): `executeRequest` records status 200 — inside
[200, 300) — yet the success flag stays false because `cmd.Run`
returned a non-nil error. -/
theorem c1_shell_exit_200_counterexample :
    ¬ ((classify (.shellExitErr 200 "")).success = true ↔
        (200 ≤ (classify (.shellExitErr 200 "")).status ∧
         (classify (.shellExitErr 200 "")).status < 300)) := by
  decide

/-- C1 amended: for every execution result, the recorded success flag is
true iff the execution error is nil (shell exit 0 or HTTP transport
success) and the recorded status lies in [200, 300); shell exit 0 is
recorded as the synthetic status 200 with success true, and a
transport-level failure is recorded with status 0 and success false.
(A non-zero shell exit code in [200, 255] keeps success false even
though its recorded status lies in [200, 300).) -/
theorem c1_success_classification_amended :
    (∀ o : ExecOutcome, (classify o).success = true ↔
      (errIsNil o = true ∧
       200 ≤ (classify o).status ∧ (classify o).status < 300)) ∧
    (∀ out, (classify (.shellExit0 out)).status = 200 ∧
      (classify (.shellExit0 out)).success = true) ∧
    (classify .httpErr).status = 0 ∧ (classify .httpErr).success = false := by
  refine ⟨fun o => ?_, fun out => ⟨rfl, rfl⟩, rfl, rfl⟩
  cases o with
  | shellExit0 out => simp [classify, errIsNil]
  | shellExitErr c st => simp [classify, errIsNil]
  | shellStartErr st => simp [classify, errIsNil]
  | httpResp s cl b => simp [classify, errIsNil, decide_eq_true_eq]
  | httpErr => simp [classify, errIsNil]

/-- C2: for every outcome of `executeRequest` — the two `time.Now()`
calls inside it are monotonic (`actualStart <= endTime`), and both
emission paths pass a scheduled instant not later than the moment the
request goroutine starts (`scheduled <= actualStart`) — queue-wait and
service-time are non-negative, total-latency equals
service-time + queue-wait exactly, and in particular total-latency is
at least service-time + queue-wait minus one microsecond. -/
theorem c2_timing_invariants (scheduled actualStart endTime : Int)
    (hm : actualStart ≤ endTime) (hs : scheduled ≤ actualStart) :
    0 ≤ queueWaitOf scheduled actualStart ∧
    0 ≤ serviceTimeOf actualStart endTime ∧
    totalLatencyOf scheduled endTime =
      serviceTimeOf actualStart endTime + queueWaitOf scheduled actualStart ∧
    serviceTimeOf actualStart endTime + queueWaitOf scheduled actualStart - 1 ≤
      totalLatencyOf scheduled endTime := by
  unfold queueWaitOf serviceTimeOf totalLatencyOf
  split_ifs with h <;> omega

/-- C2 witness: the timing invariants instantiated at scheduled = 10,
actual start = 12, end = 20 (nanosecond instants). -/
theorem c2_timing_invariants_witness :
    0 ≤ queueWaitOf 10 12 ∧ 0 ≤ serviceTimeOf 12 20 ∧
    totalLatencyOf 10 20 = serviceTimeOf 12 20 + queueWaitOf 10 12 ∧
    serviceTimeOf 12 20 + queueWaitOf 10 12 - 1 ≤ totalLatencyOf 10 20 :=
  c2_timing_invariants 10 12 20 (by decide) (by decide)

/-- C5 counterexample: with a URL template that failed to parse, `Run`
still starts the scheduler (control reaches the mode dispatch at
runner.go:191-195) — the parse error is only printed, so the claimed
"the run is fatal: the scheduler does not start" is false. -/
theorem c5_parse_error_not_fatal_counterexample :
    (runStartup (Except.error "template: url: bad action") none none
        []).schedulerStarted = true ∧
    (runStartup (Except.error "template: url: bad action") none none
        []).tmplURL = none := by
  exact ⟨rfl, rfl⟩

/-- Lookup in the startup header-template map misses every key that is
not among the configured header names. -/
theorem headerGet_filterMap_notMem (l : List (String × Except String String))
    (k : String) (hk : k ∉ l.map Prod.fst) :
    headerGet (l.filterMap (fun kv => kv.2.toOption.map (fun t => (kv.1, t)))) k = none := by
  induction l with
  | nil => rfl
  | cons kv r ih =>
      obtain ⟨k1, v1⟩ := kv
      rw [List.map_cons] at hk
      have hk1 : k ≠ k1 := fun h => hk (h ▸ List.mem_cons_self _ _)
      have hk2 : k ∉ r.map Prod.fst := fun h => hk (List.mem_cons_of_mem _ h)
      cases v1 with
      | error e =>
          have hstep : List.filterMap (fun kv : String × Except String String =>
                kv.2.toOption.map (fun t => (kv.1, t))) ((k1, Except.error e) :: r) =
              List.filterMap (fun kv : String × Except String String =>
                kv.2.toOption.map (fun t => (kv.1, t))) r := rfl
          rw [hstep]
          exact ih hk2
      | ok t =>
          have hstep : List.filterMap (fun kv : String × Except String String =>
                kv.2.toOption.map (fun t => (kv.1, t))) ((k1, Except.ok t) :: r) =
              (k1, t) :: List.filterMap (fun kv : String × Except String String =>
                kv.2.toOption.map (fun t => (kv.1, t))) r := rfl
          rw [hstep]
          simp only [headerGet]
          rw [if_neg (Ne.symm hk1)]
          exact ih hk2

/-- Startup skips the map insertion for a header whose template failed
to parse (runner.go:177-184): with distinct configured header names —
Go header configurations are a `map[string]string` — the failed
header's key is absent from the template map. -/
theorem headers_skip (l : List (String × Except String String)) (k e : String)
    (hmem : (k, Except.error e) ∈ l) (hnd : (l.map Prod.fst).Nodup) :
    headerGet (l.filterMap (fun kv => kv.2.toOption.map (fun t => (kv.1, t)))) k = none := by
  induction l with
  | nil => cases hmem
  | cons kv r ih =>
      obtain ⟨k1, v1⟩ := kv
      rw [List.map_cons, List.nodup_cons] at hnd
      rcases List.mem_cons.mp hmem with heq | hr
      · rw [Prod.mk.injEq] at heq
        obtain ⟨hek, hev⟩ := heq
        subst hek
        subst hev
        have hstep : List.filterMap (fun kv : String × Except String String =>
              kv.2.toOption.map (fun t => (kv.1, t))) ((k, Except.error e) :: r) =
            List.filterMap (fun kv : String × Except String String =>
              kv.2.toOption.map (fun t => (kv.1, t))) r := rfl
        rw [hstep]
        exact headerGet_filterMap_notMem r k hnd.1
      · have hkmem : k ∈ r.map Prod.fst :=
          List.mem_map.mpr ⟨(k, Except.error e), hr, rfl⟩
        have hne : k1 ≠ k := fun h => hnd.1 (h ▸ hkmem)
        cases v1 with
        | error e2 =>
            have hstep : List.filterMap (fun kv : String × Except String String =>
                  kv.2.toOption.map (fun t => (kv.1, t))) ((k1, Except.error e2) :: r) =
                List.filterMap (fun kv : String × Except String String =>
                  kv.2.toOption.map (fun t => (kv.1, t))) r := rfl
            rw [hstep]
            exact ih hr hnd.2
        | ok t =>
            have hstep : List.filterMap (fun kv : String × Except String String =>
                  kv.2.toOption.map (fun t => (kv.1, t))) ((k1, Except.ok t) :: r) =
                (k1, t) :: List.filterMap (fun kv : String × Except String String =>
                  kv.2.toOption.map (fun t => (kv.1, t))) r := rfl
            rw [hstep]
            simp only [headerGet]
            rw [if_neg hne]
            exact ih hr hnd.2

/-- C5 amended: if any configured template — URL, body, shell command
or a header value — fails to parse at run start, the error is only
printed and the run is not fatal: the scheduler starts anyway, the
failed URL / body / command template field is left nil and a failed
header is skipped from the template map, and requests are still
emitted — the executor falls back to the raw configured string for a
nil URL or command template, to the raw configured body for a nil body
template, and to the raw configured header value for a skipped
header.  (Configured header names are distinct, being the keys of a Go
map.) -/
theorem c5_parse_error_amended (purl : Except String String)
    (pbody pcmd : Option (Except String String))
    (phdrs : List (String × Except String String))
    (hnd : (phdrs.map Prod.fst).Nodup) :
    (runStartup purl pbody pcmd phdrs).schedulerStarted = true ∧
    (∀ e, purl = Except.error e →
      (runStartup purl pbody pcmd phdrs).tmplURL = none ∧
      ∀ raw rendered, requestURL (runStartup purl pbody pcmd phdrs) raw rendered = raw) ∧
    (∀ e, pbody = some (Except.error e) →
      (runStartup purl pbody pcmd phdrs).tmplBody = none ∧
      ∀ raw rendered, raw ≠ "" →
        requestBody (runStartup purl pbody pcmd phdrs) raw rendered = some raw) ∧
    (∀ e, pcmd = some (Except.error e) →
      (runStartup purl pbody pcmd phdrs).tmplCmd = none ∧
      ∀ raw rendered, requestCmd (runStartup purl pbody pcmd phdrs) raw rendered = raw) ∧
    (∀ k e, (k, Except.error e) ∈ phdrs →
      headerGet (runStartup purl pbody pcmd phdrs).tmplHeaders k = none ∧
      ∀ raw rendered,
        requestHeaderVal (runStartup purl pbody pcmd phdrs) k raw rendered = raw) := by
  refine ⟨rfl, ?_, ?_, ?_, ?_⟩
  · intro e he
    subst he
    exact ⟨rfl, fun raw rendered => rfl⟩
  · intro e he
    subst he
    refine ⟨rfl, fun raw rendered hne => ?_⟩
    simp [requestBody, runStartup, Except.toOption, hne]
  · intro e he
    subst he
    exact ⟨rfl, fun raw rendered => rfl⟩
  · intro k e hmem
    have hskip : headerGet (runStartup purl pbody pcmd phdrs).tmplHeaders k = none :=
      headers_skip phdrs k e hmem hnd
    refine ⟨hskip, fun raw rendered => ?_⟩
    simp [requestHeaderVal, hskip]

/-- C5 witness: the amended statement with every template kind failing
at once — URL, body, command and the header `X-A` — showing the
scheduler still starts and every raw-string fallback fires. -/
theorem c5_parse_error_amended_witness :
    (runStartup (Except.error "u") (some (Except.error "b")) (some (Except.error "c"))
        [("X-A", Except.error "h"), ("X-B", Except.ok "tpl")]).schedulerStarted = true ∧
    (runStartup (Except.error "u") (some (Except.error "b")) (some (Except.error "c"))
        [("X-A", Except.error "h"), ("X-B", Except.ok "tpl")]).tmplURL = none ∧
    requestURL (runStartup (Except.error "u") (some (Except.error "b"))
        (some (Except.error "c")) [("X-A", Except.error "h"), ("X-B", Except.ok "tpl")])
      "http://raw-url" "rendered" = "http://raw-url" ∧
    (runStartup (Except.error "u") (some (Except.error "b")) (some (Except.error "c"))
        [("X-A", Except.error "h"), ("X-B", Except.ok "tpl")]).tmplBody = none ∧
    requestBody (runStartup (Except.error "u") (some (Except.error "b"))
        (some (Except.error "c")) [("X-A", Except.error "h"), ("X-B", Except.ok "tpl")])
      "rawbody" "rendered" = some "rawbody" ∧
    (runStartup (Except.error "u") (some (Except.error "b")) (some (Except.error "c"))
        [("X-A", Except.error "h"), ("X-B", Except.ok "tpl")]).tmplCmd = none ∧
    requestCmd (runStartup (Except.error "u") (some (Except.error "b"))
        (some (Except.error "c")) [("X-A", Except.error "h"), ("X-B", Except.ok "tpl")])
      "echo hi" "rendered" = "echo hi" ∧
    headerGet (runStartup (Except.error "u") (some (Except.error "b"))
        (some (Except.error "c")) [("X-A", Except.error "h"), ("X-B", Except.ok "tpl")]).tmplHeaders
      "X-A" = none ∧
    requestHeaderVal (runStartup (Except.error "u") (some (Except.error "b"))
        (some (Except.error "c")) [("X-A", Except.error "h"), ("X-B", Except.ok "tpl")])
      "X-A" "rawval" "rendered" = "rawval" := by
  have h := c5_parse_error_amended (Except.error "u") (some (Except.error "b"))
    (some (Except.error "c")) [("X-A", Except.error "h"), ("X-B", Except.ok "tpl")]
    (by decide)
  exact ⟨h.1, (h.2.1 "u" rfl).1, (h.2.1 "u" rfl).2 "http://raw-url" "rendered",
    (h.2.2.1 "b" rfl).1, (h.2.2.1 "b" rfl).2 "rawbody" "rendered" (by decide),
    (h.2.2.2.1 "c" rfl).1, (h.2.2.2.1 "c" rfl).2 "echo hi" "rendered",
    (h.2.2.2.2 "X-A" "h" (List.mem_cons_self _ _)).1,
    (h.2.2.2.2 "X-A" "h" (List.mem_cons_self _ _)).2 "rawval" "rendered"⟩

/-- C7 counterexample: a shell command that exits 0 with non-empty
stdout (`echo hello`) has its full stdout retained as the response
body, status 200 — refuting the claim that a body is retained only
when HTTP status >= 400 or the shell exit code is non-zero. -/
theorem c7_shell_success_body_counterexample :
    (classify (.shellExit0 "hello")).status = 200 ∧
    (classify (.shellExit0 "hello")).respBody = "hello" ∧
    (classify (.shellExit0 "hello")).respBody ≠ "" := by
  decide

/-- C7 amended: `executeRequest` retains a response body for every
shell execution (the entire stdout on exit 0; the entire stderr on a
non-zero exit or a start failure) and for HTTP responses with
status >= 400 (the entire body); HTTP responses below 400 and
transport failures retain nothing.  No retained body is length-capped:
bodies of every length occur. -/
theorem c7_body_retention_amended :
    (∀ out, (classify (.shellExit0 out)).respBody = out) ∧
    (∀ c st, (classify (.shellExitErr c st)).respBody = st) ∧
    (∀ st, (classify (.shellStartErr st)).respBody = st) ∧
    (∀ s cl b, 400 ≤ s → (classify (.httpResp s cl b)).respBody = b) ∧
    (∀ s cl b, s < 400 → (classify (.httpResp s cl b)).respBody = "") ∧
    (classify .httpErr).respBody = "" ∧
    (∀ n : Nat, ∃ o, ((classify o).respBody).length = n + 1) := by
  refine ⟨fun out => rfl, fun c st => rfl, fun st => rfl,
    fun s cl b h => ?_, fun s cl b h => ?_, rfl, fun n => ?_⟩
  · simp [classify, h]
  · simp [classify]
    omega
  · refine ⟨.shellExit0 (String.mk (List.replicate (n + 1) 'a')), ?_⟩
    simp [classify, String.length]

/-- C7 witness: the amended retention rules at concrete outcomes — a
shell success retaining its stdout, a 404 retaining its body, a 200
retaining nothing. -/
theorem c7_body_retention_amended_witness :
    (classify (.shellExit0 "out")).respBody = "out" ∧
    (classify (.httpResp 404 (-1) "not found")).respBody = "not found" ∧
    (classify (.httpResp 200 5 "okbody")).respBody = "" :=
  ⟨c7_body_retention_amended.1 "out",
   c7_body_retention_amended.2.2.2.1 404 (-1) "not found" (by norm_num),
   c7_body_retention_amended.2.2.2.2.1 200 5 "okbody" (by norm_num)⟩

/-- C8: evaluating `Stats.Add` at the failing input.  A request whose
response has unknown content length is recorded with
`bytesLen = resp.ContentLength = -1` (runner.go:414), and the call
site converts it with `uint64(res.Bytes) = 2^64 - 1` (runner.go:455);
`AddUint64` then wraps the byte counter, decreasing it from 5 to 4 —
the byte-total snapshot counter is not monotonic non-decreasing. -/
theorem c8_bytes_wraparound :
    (statsAdd statsInit true 5 0 0 0 200).bytes = 5 ∧
    uint64OfInt64 (-1) = 2 ^ 64 - 1 ∧
    (statsAdd (statsAdd statsInit true 5 0 0 0 200) true (uint64OfInt64 (-1))
        0 0 0 200).bytes = 4 ∧
    (statsAdd (statsAdd statsInit true 5 0 0 0 200) true (uint64OfInt64 (-1))
        0 0 0 200).bytes < (statsAdd statsInit true 5 0 0 0 200).bytes := by
  refine ⟨?_, ?_, ?_, ?_⟩ <;> decide

/-- C10: `ErrorRate` and `QueueWaitAvgMs` guard the division by the
request count — they return 0 whenever the requests counter is zero,
and otherwise return fails / requests * 100 and
total-queue-wait-microseconds / requests / 1000 respectively. -/
theorem c10_guarded_averages (s : StatsState) :
    (s.requests = 0 → errorRate s = 0 ∧ queueWaitAvgMs s = 0) ∧
    (0 < s.requests →
      errorRate s = ((s.fail : ℚ) / (s.requests : ℚ)) * 100 ∧
      queueWaitAvgMs s = ((s.totalQueueWaitMicro : ℚ) / (s.requests : ℚ)) / 1000) := by
  constructor
  · intro h
    simp [errorRate, queueWaitAvgMs, h]
  · intro h
    have hne : s.requests ≠ 0 := by omega
    simp [errorRate, queueWaitAvgMs, hne]

/-- C10 witness: the guarded averages at the fresh state (requests = 0)
and after one failed request (requests = 1). -/
theorem c10_guarded_averages_witness :
    (errorRate statsInit = 0 ∧ queueWaitAvgMs statsInit = 0) ∧
    (errorRate (statsAdd statsInit false 0 0 0 0 500) =
       (((statsAdd statsInit false 0 0 0 0 500).fail : ℚ) /
        ((statsAdd statsInit false 0 0 0 0 500).requests : ℚ)) * 100 ∧
     queueWaitAvgMs (statsAdd statsInit false 0 0 0 0 500) =
       (((statsAdd statsInit false 0 0 0 0 500).totalQueueWaitMicro : ℚ) /
        ((statsAdd statsInit false 0 0 0 0 500).requests : ℚ)) / 1000) :=
  ⟨(c10_guarded_averages statsInit).1 rfl,
   (c10_guarded_averages (statsAdd statsInit false 0 0 0 0 500)).2 (by decide)⟩

/-- Invariant preservation of `Stats.Add` along any sequence of recorded
requests: the success/failure split and the status-code-map total both
track the requests counter. -/
theorem statsRunFrom_invariant (ops : List AddArgs) (s : StatsState)
    (h1 : s.success + s.fail = s.requests)
    (h2 : s.codes.length = s.requests) :
    (statsRunFrom s ops).success + (statsRunFrom s ops).fail =
      (statsRunFrom s ops).requests ∧
    (statsRunFrom s ops).codes.length = (statsRunFrom s ops).requests := by
  induction ops generalizing s with
  | nil => exact ⟨h1, h2⟩
  | cons a rest ih =>
      refine ih (statsAdd s a.res a.bytes a.serviceUs a.queueUs a.totalUs a.code) ?_ ?_
      · cases hr : a.res <;> simp [statsAdd, hr] <;> omega
      · simp [statsAdd]
        omega

/-- C4: starting from a fresh `Stats` value (or equivalently after
`Reset`, which restores the fresh state), after every sequence of
`Add` operations the success and failure counters sum to the requests
counter, and the counts in the status-code map sum to the requests
counter (the map's total is the number of recorded codes); in
particular both equalities hold after drain, when no further `Add` is
in flight. -/
theorem c4_counter_invariants (ops : List AddArgs) :
    (∀ s0 : StatsState, statsReset s0 = statsInit) ∧
    (statsRun ops).success + (statsRun ops).fail = (statsRun ops).requests ∧
    (statsRun ops).codes.length = (statsRun ops).requests :=
  ⟨fun _ => rfl,
   (statsRunFrom_invariant ops statsInit rfl rfl).1,
   (statsRunFrom_invariant ops statsInit rfl rfl).2⟩

/-- C3: for every configuration with non-negative ramp-up, steady and
ramp-down durations and every elapsed >= 0, `getCurrentRPS` equals the
piecewise-linear rate curve of the specification over the half-open
phase intervals. -/
theorem c3_rate_piecewise (cfg : RPSConfig) (e : ℚ)
    (hru : 0 ≤ cfg.rampUp) (hsd : 0 ≤ cfg.steadyDur)
    (hrd : 0 ≤ cfg.rampDown) (he : 0 ≤ e) :
    getCurrentRPS cfg e = rpsPiecewiseSpec cfg e := by
  have hru' : (0 : ℚ) ≤ (cfg.rampUp : ℚ) := by exact_mod_cast hru
  have hsd' : (0 : ℚ) ≤ (cfg.steadyDur : ℚ) := by exact_mod_cast hsd
  have hrd' : (0 : ℚ) ≤ (cfg.rampDown : ℚ) := by exact_mod_cast hrd
  unfold getCurrentRPS rpsPiecewiseSpec
  rcases lt_or_le e ((cfg.rampUp : ℚ)) with h1 | h1
  · have hb1 : 0 ≤ e ∧ e < (cfg.rampUp : ℚ) := ⟨he, h1⟩
    rw [if_pos h1, if_pos hb1]
  · have hn1 : ¬ (0 ≤ e ∧ e < (cfg.rampUp : ℚ)) :=
      fun hc => absurd hc.2 (not_lt.mpr h1)
    rw [if_neg (not_lt.mpr h1), if_neg hn1]
    rcases lt_or_le e ((cfg.rampUp : ℚ) + (cfg.steadyDur : ℚ)) with h2 | h2
    · have hb2 : (cfg.rampUp : ℚ) ≤ e ∧ e < (cfg.rampUp : ℚ) + (cfg.steadyDur : ℚ) := ⟨h1, h2⟩
      rw [if_pos h2, if_pos hb2]
    · have hn2 : ¬ ((cfg.rampUp : ℚ) ≤ e ∧ e < (cfg.rampUp : ℚ) + (cfg.steadyDur : ℚ)) :=
        fun hc => absurd hc.2 (not_lt.mpr h2)
      rw [if_neg (not_lt.mpr h2), if_neg hn2]
      rcases lt_or_le e ((cfg.rampUp : ℚ) + (cfg.steadyDur : ℚ) + (cfg.rampDown : ℚ)) with h3 | h3
      · have hb3 : (cfg.rampUp : ℚ) + (cfg.steadyDur : ℚ) ≤ e ∧
            e < (cfg.rampUp : ℚ) + (cfg.steadyDur : ℚ) + (cfg.rampDown : ℚ) := ⟨h2, h3⟩
        rw [if_pos h3, if_pos hb3]
      · have hn3 : ¬ ((cfg.rampUp : ℚ) + (cfg.steadyDur : ℚ) ≤ e ∧
            e < (cfg.rampUp : ℚ) + (cfg.steadyDur : ℚ) + (cfg.rampDown : ℚ)) :=
          fun hc => absurd hc.2 (not_lt.mpr h3)
        rw [if_neg (not_lt.mpr h3), if_neg hn3]

/-- C3 witness: the rate curve equality at a concrete configuration
(target 100 rps, ramp-up 2 s, steady 3 s, ramp-down 4 s) evaluated in
the middle of the ramp-up phase. -/
theorem c3_rate_piecewise_witness :
    getCurrentRPS ⟨100, 2, 3, 4⟩ (3 / 2) = rpsPiecewiseSpec ⟨100, 2, 3, 4⟩ (3 / 2) :=
  c3_rate_piecewise ⟨100, 2, 3, 4⟩ (3 / 2) (by norm_num) (by norm_num)
    (by norm_num) (by norm_num)

/-- Stripping an expected leading sequence from that sequence followed
by anything returns the remainder. -/
theorem stripLead_append (p s : List Char) : stripLead p (p ++ s) = some s := by
  induction p with
  | nil => rfl
  | cons c cs ih => simp [stripLead, ih]

/-- Scanning a quoted path consumes exactly the path characters when
the path contains no quote and the closing quote is followed by the
two closing braces. -/
theorem scanPath_close (rest : List Char) (hq : '"' ∉ rest) :
    scanPath (rest ++ '"' :: cbr :: cbr :: []) = some rest := by
  induction rest with
  | nil => rfl
  | cons c cs ih =>
      have hc : c ≠ '"' := fun h => hq (h ▸ List.mem_cons_self c cs)
      have hcs : '"' ∉ cs := fun h => hq (List.mem_cons_of_mem c h)
      simp [scanPath, hc, ih hcs]

/-- Rendering a `readFile` body when the cache already holds the file
returns the cached contents with no further file read. -/
theorem renderMany_hit (fs : List Char → List Char) (p : List Char)
    (n : Nat) (cache : List (List Char × List Char))
    (hhit : cacheGet cache p = some (fs p)) :
    renderMany fs (.readFileCall p) n cache = (List.replicate n (fs p), cache, 0) := by
  induction n with
  | zero => rfl
  | succ n ih => simp [renderMany, renderBody, engineReadFile, hhit, ih, List.replicate]

/-- Rendering a `readFile` body `n` times from a cache that is
consistent with the file system yields the file contents every time
and reads the file at most once. -/
theorem renderMany_readFile (fs : List Char → List Char) (p : List Char)
    (n : Nat) (cache : List (List Char × List Char))
    (hc : ∀ v, cacheGet cache p = some v → v = fs p) :
    (renderMany fs (.readFileCall p) n cache).1 = List.replicate n (fs p) ∧
    (renderMany fs (.readFileCall p) n cache).2.2 ≤ 1 := by
  cases n with
  | zero => simp [renderMany]
  | succ n =>
      cases hcg : cacheGet cache p with
      | some v =>
          have hv : v = fs p := hc v hcg
          subst hv
          rw [renderMany_hit fs p (n + 1) cache hcg]
          simp
      | none =>
          have hhit : cacheGet ((p, fs p) :: cache) p = some (fs p) := by
            simp [cacheGet]
          simp [renderMany, renderBody, engineReadFile, hcg,
            renderMany_hit fs p n ((p, fs p) :: cache) hhit, List.replicate]

/-- C6: for every configured body beginning with the literal `@`
(`'@' :: rest` with a filename free of quote and backslash characters,
so that the unmodelled `%q` escaping is the identity), the engine
rewrites the body to `readFile("<rest>")` before parsing, the rewritten
text parses as exactly that `readFile` call, every one of the `n`
per-request rendered bodies equals the entire contents of the file
(which is read at most once and cached), and `readFile` is available in
the template function table. -/
theorem c6_body_file_indirection (rest : List Char)
    (fs : List Char → List Char) (n : Nat)
    (hq : '"' ∉ rest) (hb : '\\' ∉ rest) :
    rewriteBody ('@' :: rest) =
      obr :: obr :: ("readFile \"".data ++ rest ++ ('"' :: cbr :: cbr :: [])) ∧
    parseBody (rewriteBody ('@' :: rest)) = some (.readFileCall rest) ∧
    (renderMany fs (.readFileCall rest) n []).1 = List.replicate n (fs rest) ∧
    (renderMany fs (.readFileCall rest) n []).2.2 ≤ 1 ∧
    "readFile" ∈ engineFuncTable := by
  have hparse : parseBody (rewriteBody ('@' :: rest)) = some (.readFileCall rest) := by
    have hshape : rewriteBody ('@' :: rest) =
        (obr :: obr :: "readFile \"".data) ++ (rest ++ ('"' :: cbr :: cbr :: [])) := by
      simp [rewriteBody]
    rw [hshape]
    unfold parseBody
    rw [stripLead_append]
    simp [scanPath_close rest hq]
  have hrender := renderMany_readFile fs rest n [] (fun v hv => by simp [cacheGet] at hv)
  exact ⟨rfl, hparse, hrender.1, hrender.2, by decide⟩

/-- C6 witness: the body `@payload.json` rewritten, parsed and rendered
three times against a file system where the file holds `DATA`. -/
theorem c6_body_file_indirection_witness :
    rewriteBody ('@' :: "payload.json".data) =
      obr :: obr :: ("readFile \"".data ++ "payload.json".data ++ ('"' :: cbr :: cbr :: [])) ∧
    parseBody (rewriteBody ('@' :: "payload.json".data)) =
      some (.readFileCall "payload.json".data) ∧
    (renderMany (fun _ => "DATA".data) (.readFileCall "payload.json".data) 3 []).1 =
      List.replicate 3 "DATA".data ∧
    (renderMany (fun _ => "DATA".data) (.readFileCall "payload.json".data) 3 []).2.2 ≤ 1 ∧
    "readFile" ∈ engineFuncTable :=
  c6_body_file_indirection "payload.json".data (fun _ => "DATA".data) 3
    (by decide) (by decide)

/-- Wraparound is the identity on values already inside the `int64`
range. -/
theorem wrap64_eq_self (x : Int) (h1 : -(2 ^ 63) ≤ x) (h2 : x < 2 ^ 63) :
    wrap64 x = x := by
  unfold wrap64
  have h3 : (0 : Int) ≤ x + 2 ^ 63 := by linarith
  have h4 : x + 2 ^ 63 < 2 ^ 64 := by norm_num; linarith
  rw [Int.emod_eq_of_lt h3 h4]
  ring

/-- C9 counterexample: on Go 64-bit ints the subtraction `max - min`
wraps.  At `lo = -2^63`, `hi = 2^63 - 1` (so `lo < hi`) the wrapped
difference is `-1` and `rand.Intn` panics instead of returning an
integer in `[lo, hi)`; and at `lo = 2^63 - 1`, `hi = -2` (so
`hi <= lo`) the wrapped difference is positive and the call returns a
value instead of being rejected. -/
theorem c9_int64_overflow_counterexample :
    ((-(2 ^ 63) : Int) < 2 ^ 63 - 1 ∧
      randomInt 0 (-(2 ^ 63) : Int) (2 ^ 63 - 1) = none) ∧
    (((-2 : Int) ≤ 2 ^ 63 - 1) ∧
      randomInt 0 ((2 ^ 63 - 1) : Int) (-2) = some (2 ^ 63 - 1)) := by
  refine ⟨⟨by norm_num, ?_⟩, ⟨by norm_num, ?_⟩⟩ <;> decide

/-- C9 amended: provided the true difference between the bounds fits in
`int64`, the claim holds — for every pair of `int64` values `lo < hi`
with `hi - lo < 2^63`, `randomInt(lo, hi)` returns an integer in the
half-open interval `[lo, hi)` for every PRNG draw, and a call with
`hi <= lo` (with `lo - hi <= 2^63`) panics in `rand.Intn` rather than
returning a value.  Outside these ranges the subtraction wraps (see
the counterexample). -/
theorem c9_randomInt_amended (r : Nat) (lo hi : Int)
    (hlo1 : -(2 ^ 63) ≤ lo) (hlo2 : lo < 2 ^ 63)
    (hhi1 : -(2 ^ 63) ≤ hi) (hhi2 : hi < 2 ^ 63) :
    (lo < hi → hi - lo < 2 ^ 63 →
      ∃ v, randomInt r lo hi = some v ∧ lo ≤ v ∧ v < hi) ∧
    (hi ≤ lo → lo - hi ≤ 2 ^ 63 → randomInt r lo hi = none) := by
  constructor
  · intro hlt hfit
    have hd1 : (0 : Int) < hi - lo := by linarith
    have hn : wrap64 (hi - lo) = hi - lo :=
      wrap64_eq_self (hi - lo) (by linarith) hfit
    have hr0 : (0 : Int) ≤ (r : Int) % (hi - lo) :=
      Int.emod_nonneg (r : Int) (by linarith)
    have hr1 : (r : Int) % (hi - lo) < hi - lo :=
      Int.emod_lt_of_pos (r : Int) hd1
    have hv1 : lo ≤ (r : Int) % (hi - lo) + lo := by linarith
    have hv2 : (r : Int) % (hi - lo) + lo < hi := by linarith
    refine ⟨(r : Int) % (hi - lo) + lo, ?_, hv1, hv2⟩
    unfold randomInt
    rw [hn, if_neg (not_le.mpr hd1),
      wrap64_eq_self ((r : Int) % (hi - lo) + lo) (by linarith) (by linarith)]
  · intro hle hfit
    have hn : wrap64 (hi - lo) = hi - lo :=
      wrap64_eq_self (hi - lo) (by linarith) (by linarith)
    unfold randomInt
    rw [hn, if_pos (by linarith)]

/-- C9 witness: the amended statement at `randomInt(1, 4)` with PRNG
draw 5, and the rejection at `randomInt(4, 4)`. -/
theorem c9_randomInt_amended_witness :
    (∃ v, randomInt 5 1 4 = some v ∧ 1 ≤ v ∧ v < 4) ∧
    randomInt 7 4 4 = none :=
  ⟨(c9_randomInt_amended 5 1 4 (by norm_num) (by norm_num) (by norm_num)
      (by norm_num)).1 (by norm_num) (by norm_num),
   (c9_randomInt_amended 7 4 4 (by norm_num) (by norm_num) (by norm_num)
      (by norm_num)).2 (by norm_num) (by norm_num)⟩

end SteadyQ
